import Mathlib

/-!
Verification of the wpilib diagnostic logging pipeline
(src/wpilibc/wpilibC++/src/Logger.cpp, LogLocation.cpp and
src/hal/lib/Athena/cpp/ErrorCodes.cpp) against its specification.

Strings are modelled as lists of characters.  The C++ std::map tables are
modelled as association lists with first-match lookup; std::map operator[]
on a missing key default-inserts an empty string, which the model mirrors.
The stack-trace capture (GetStackTrace, external to this repository) is an
oracle function from the skip depth to a string, and the steady-clock
timestamp is an oracle integer carried in milliseconds (the value
FormatParseable prints).  Raw C pointers for error-code names are modelled
by string contents, and the nullable codename pointer of Logger::Log by an
Option.  Integer overflow of std::atoi is outside the range exercised here
and the model uses unbounded integers.
-/

namespace WpiLog

/-- Strings are lists of characters. -/
abbrev Str : Type := List Char

/-- Coerce a Lean string literal to the model's string type. -/
def strOf (s : String) : Str := s.data

/-- Concat-map over the characters of a string; used to describe the
escaping functions character by character in proofs. -/
def cmap (g : Char → List Char) : List Char → List Char
  | [] => []
  | c :: t => g c ++ cmap g t

/-- Association-list lookup, first match wins.  Models lookup in a
std::map (whose keys are unique). -/
def alookup {κ α : Type} [DecidableEq κ] (k : κ) : List (κ × α) → Option α
  | [] => none
  | (k2, v) :: t => if k2 = k then some v else alookup k t

/-- Models assignment through std::map operator[], m[k] = v: overwrites the
entry at k when present, otherwise inserts a new entry. -/
def mapInsert {κ α : Type} [DecidableEq κ] (m : List (κ × α)) (k : κ) (v : α) :
    List (κ × α) :=
  match alookup k m with
  | some _ => m.map (fun p => if p.1 = k then (k, v) else p)
  | none => m ++ [(k, v)]

/-- Models a read through std::map operator[] on a map to strings, as in
m_levels[msg.level]: returns the stored value, default-inserting the empty
string when the key is missing.  Returns the value and the updated map. -/
def mapIndex (m : List (Int × Str)) (k : Int) : Str × List (Int × Str) :=
  match alookup k m with
  | some v => (v, m)
  | none => ([], m ++ [(k, [])])

/-- Embeds Logger::FindAndReplace (Logger.cpp lines 194-201): scan left to
right, replace every occurrence of find by repl, and resume scanning after
the replacement text.  The source loops forever when find is empty (and is
never called that way); the model is the identity in that degenerate case. -/
def findAndReplace (find repl : List Char) : List Char → List Char
  | [] => []
  | c :: rest =>
    if h : find.isPrefixOf (c :: rest) = true ∧ find ≠ [] then
      repl ++ findAndReplace find repl (List.drop find.length (c :: rest))
    else
      c :: findAndReplace find repl rest
termination_by s => s.length
decreasing_by
  · have h1 : 0 < find.length := List.length_pos.mpr h.2
    simp only [List.length_drop, List.length_cons]
    omega
  · simp only [List.length_cons]
    omega

/-- The escaping applied to each field of the parseable record
(Logger.cpp lines 146-148): backslash doubled first, then comma, then
semicolon each protected with a backslash. -/
def escape (s : Str) : Str :=
  findAndReplace [';'] ['\\', ';']
    (findAndReplace [','] ['\\', ',']
      (findAndReplace ['\\'] ['\\', '\\'] s))

/-- Modelled from the spec: un-escaping reverses the three substitutions of
escape in reverse order (semicolon, then comma, then backslash). -/
def unescape (s : Str) : Str :=
  findAndReplace ['\\', '\\'] ['\\']
    (findAndReplace ['\\', ','] [',']
      (findAndReplace ['\\', ';'] [';'] s))

/-- Character action of the backslash-doubling pass. -/
def e1 (c : Char) : List Char := if c = '\\' then ['\\', '\\'] else [c]

/-- Character action of the comma-escaping pass. -/
def e2 (c : Char) : List Char := if c = ',' then ['\\', ','] else [c]

/-- Character action of the semicolon-escaping pass. -/
def e3 (c : Char) : List Char := if c = ';' then ['\\', ';'] else [c]

/-- Character action of the full escape (the three passes composed). -/
def esc (c : Char) : List Char := cmap e3 (cmap e2 (e1 c))

/-- Character action remaining after the semicolon un-escaping pass. -/
def esc1 (c : Char) : List Char :=
  if c = '\\' then ['\\', '\\'] else if c = ',' then ['\\', ','] else [c]

/-- Character action remaining after the comma un-escaping pass. -/
def esc2 (c : Char) : List Char := if c = '\\' then ['\\', '\\'] else [c]

/-- The whitespace class skipped by std::atoi (C isspace). -/
def isCSpace (c : Char) : Bool :=
  c == ' ' || c == '\t' || c == '\n' || c == '\x0b' || c == '\x0c' || c == '\r'

/-- Value of the leading run of decimal digits of a string (0 if none). -/
def digitsVal (l : Str) : Int :=
  (l.takeWhile (fun c => c.isDigit)).foldl
    (fun a c => a * 10 + ((c.toNat : Int) - ('0'.toNat : Int))) 0

/-- Embeds std::atoi as used at Logger.cpp line 50: skip leading
whitespace, optional single sign, then the leading digit run; any string
with no leading digits yields 0. -/
def atoi (s : Str) : Int :=
  match s.dropWhile (fun c => isCSpace c) with
  | '-' :: rest => - digitsVal rest
  | '+' :: rest => digitsVal rest
  | rest => digitsVal rest

/-- Decimal rendering of an integer, as std::to_string. -/
def intToStr (n : Int) : Str := (toString n).data

/-- Embeds struct LogLocation (LogLocation.h). -/
structure LogLocation where
  file : Str
  func : Str
  line : Int
deriving DecidableEq

/-- Embeds LogLocation::operator std::string (LogLocation.cpp lines 3-9):
the "file:function:line" string. -/
def locString (l : LogLocation) : Str :=
  l.file ++ [':'] ++ l.func ++ [':'] ++ intToStr l.line

/-- Positions at which pat occurs in s (full-match positions). -/
def occs (pat s : Str) : List Nat :=
  (List.range (s.length + 1)).filter (fun i => pat.isPrefixOf (s.drop i))

/-- First occurrence position of pat in s (std::string::find). -/
def strFind (pat s : Str) : Option Nat := (occs pat s).head?

/-- Last occurrence position of pat in s (std::string::rfind). -/
def strRFind (pat s : Str) : Option Nat := (occs pat s).getLast?

/-- Embeds LogLocation::ShortFilename (LogLocation.cpp lines 11-19): trim
the string to start at the first occurrence of "wpilib", else at the last
occurrence of "src", else leave it unchanged. -/
def shortFilename (name : Str) : Str :=
  match strFind (strOf "wpilib") name with
  | some i => name.drop i
  | none =>
    match strRFind (strOf "src") name with
    | some i => name.drop i
    | none => name

/-- Embeds Logger::LogMessage (Logger.h lines 93-104).  The timestamp is
carried as the millisecond count that FormatParseable prints. -/
structure LogMessage where
  level : Int
  code : Int
  details : Str
  location : LogLocation
  timestamp : Int
  stacktrace : Str
  originatingObject : Str
deriving DecidableEq

/-- The LogMessage built at Logger.cpp lines 60-62, with the clock and the
stack-trace capture supplied as oracles (now, trace). -/
def mkLogMessage (level code : Int) (details : Str) (loc : LogLocation)
    (orig : Str) (depth now : Int) (trace : Int → Str) : LogMessage :=
  { level := level, code := code, details := details, location := loc,
    timestamp := now, stacktrace := trace depth, originatingObject := orig }

/-- Embeds the two std::map tables of class ErrorCodes (ErrorCodes.h):
code-to-message and name-to-code.  Name keys are modelled by contents. -/
structure ECState where
  codes : List (Int × Str)
  names : List (Str × Int)
deriving DecidableEq

/-- Embeds ErrorCodes::Get (ErrorCodes.cpp lines 116-121): the message for
a code, or the empty string when the code is unknown. -/
def ecGet (ec : ECState) (code : Int) : Str := (alookup code ec.codes).getD []

/-- Embeds ErrorCodes::GetCode (ErrorCodes.cpp lines 128-133): the code for
a name, or 0 when the name is unknown. -/
def ecGetCode (ec : ECState) (name : Str) : Int :=
  (alookup name ec.names).getD 0

/-- Embeds ErrorCodes::Add (ErrorCodes.cpp lines 147-154): refuses a code
that is already registered; otherwise records the message and, when a name
is given, the name-to-code entry. -/
def ecAdd (ec : ECState) (code : Int) (msg : Str) (name : Option Str) :
    ECState :=
  match alookup code ec.codes with
  | some _ => ec
  | none =>
    { codes := ec.codes ++ [(code, msg)]
      names :=
        match name with
        | some n => mapInsert ec.names n code
        | none => ec.names }

/-- The (code, name, message) triples registered by the ErrorCodes
constructor (ErrorCodes.cpp lines 9-101), in source order.  The duplicated
codes -1 and -43 are rejected by Add exactly as in the source. -/
def errorCodeSeed : List (Int × String × String) := [
  (-1, "ModuleIndexOutOfRange", "Allocating module that is out of range or not found"),
  (-1, "ChannelIndexOutOfRange", "Allocating channel that is out of range"),
  (-2, "NotAllocated", "Attempting to free unallocated resource"),
  (-3, "ResourceAlreadyAllocated", "Attempted to reuse an allocated resource"),
  (-4, "NoAvailableResources", "No available resources to allocate"),
  (-5, "NullParameter", "A pointer parameter to a method is nullptr"),
  (-6, "Timeout", "A timeout has been exceeded"),
  (-7, "CompassManufacturerError", "Compass manufacturer doesn't match HiTechnic"),
  (-8, "CompassTypeError", "Compass type doesn't match expected type for HiTechnic compass"),
  (-9, "IncompatibleMode", "The object is in an incompatible mode"),
  (-10, "AnalogTriggerLimitOrderError", "AnalogTrigger limits error.  Lower limit > Upper Limit"),
  (-11, "AnalogTriggerPulseOutputError", "Attempted to read AnalogTrigger pulse output."),
  (-12, "TaskError", "Task can't be started"),
  (-13, "TaskIDError", "Task error: Invalid ID."),
  (-14, "TaskDeletedError", "Task error: Task already deleted."),
  (-15, "TaskOptionsError", "Task error: Invalid options."),
  (-16, "TaskMemoryError", "Task can't be started due to insufficient memory."),
  (-17, "TaskPriorityError", "Task error: Invalid priority [1-255]."),
  (-18, "DriveUninitialized", "RobotDrive not initialized for the C interface"),
  (-19, "CompressorNonMatching", "Compressor slot/channel doesn't match previous instance"),
  (-20, "CompressorAlreadyDefined", "Creating a second compressor instance"),
  (-21, "CompressorUndefined", "Using compressor functions without defining compressor"),
  (-22, "InconsistentArrayValueAdded", "When packing data into an array to the dashboard, not all values added were of the same type."),
  (-23, "MismatchedComplexTypeClose", "When packing data to the dashboard, a Close for a complex type was called without a matching Open."),
  (-24, "DashboardDataOverflow", "When packing data to the dashboard, too much data was packed and the buffer overflowed."),
  (-25, "DashboardDataCollision", "The same buffer was used for packing data and for printing."),
  (-26, "EnhancedIOMissing", "IO is not attached or Enhanced IO is not enabled."),
  (-27, "LineNotOutput", "Cannot SetDigitalOutput for a line not configured for output."),
  (-28, "ParameterOutOfRange", "A parameter is out of range."),
  (-29, "SPIClockRateTooLow", "SPI clock rate was below the minimum supported"),
  (-30, "JaguarVersionError", "Jaguar firmware version error"),
  (-31, "JaguarMessageNotFound", "Jaguar message not found"),
  (-40, "NetworkTablesReadError", "Error reading NetworkTables socket"),
  (-41, "NetworkTablesBufferFull", "Buffer full writing to NetworkTables socket"),
  (-42, "NetworkTablesWrongType", "The wrong type was read from the NetworkTables entry"),
  (-43, "NetworkTablesCorrupt", "NetworkTables data stream is corrupt"),
  (-43, "SmartDashboardMissingKey", "SmartDashboard data does not exist"),
  (-50, "CommandIllegalUse", "Illegal use of Command"),
  (-80, "UnsupportedInSimulation", "Unsupported in simulation"),
  (1, "SampleRateTooHigh", "Analog module sample rate is too high"),
  (2, "VoltageOutOfRange", "Voltage to convert to raw value is out of range [-10; 10]"),
  (3, "CompressorTaskError", "Compressor task won't start"),
  (4, "LoopTimingError", "Digital module loop timing is not the expected value"),
  (5, "NonBinaryDigitalValue", "Digital output value is not 0 or 1"),
  (6, "IncorrectBatteryChannel", "Battery measurement channel is not correct value"),
  (7, "BadJoystickIndex", "Joystick index is out of range, should be 0-3"),
  (8, "BadJoystickAxis", "Joystick axis or POV is out of range"),
  (9, "InvalidMotorIndex", "Motor index is out of range, should be 0-3"),
  (10, "DriverStationTaskError", "Driver Station task won't start"),
  (11, "EnhancedIOPWMPeriodOutOfRange", "Driver Station Enhanced IO PWM Output period out of range."),
  (12, "SPIWriteNoMOSI", "Cannot write to SPI port with no MOSI output"),
  (13, "SPIReadNoMISO", "Cannot read from SPI port with no MISO input"),
  (14, "SPIReadNoData", "No data available to read from SPI"),
  (15, "IncompatibleState", "Incompatible State: The operation cannot be completed")]

/-- The ErrorCodes singleton after its constructor has run: the seed
entries folded through Add. -/
def initErrorCodes : ECState :=
  errorCodeSeed.foldl
    (fun ec e => ecAdd ec e.1 (strOf e.2.2) (some (strOf e.2.1))) ⟨[], []⟩

/-- One call to HALSendError as issued by Logger::ProcessNILog
(Logger.cpp lines 76-80). -/
structure NIReport where
  isError : Bool
  code : Int
  details : Str
  location : Str
  stacktrace : Str
deriving DecidableEq

/-- The hardware-channel warning level (enum NILevel, Logger.h line 106). -/
def kNIWarning : Int := 2

/-- The hardware-channel error level (enum NILevel, Logger.h line 106). -/
def kNIError : Int := 3

/-- The generic debug level (enum Level, Logger.h line 113). -/
def kDEBUG : Int := 1

/-- The generic warning level (enum Level, Logger.h line 113). -/
def kWARNING : Int := 2

/-- The generic error level (enum Level, Logger.h line 113). -/
def kERROR : Int := 3

/-- A buffer/console formatter registered through AddFormatter. -/
abbrev Formatter : Type := LogMessage → Str

/-- The mutable state of the Logger singleton that the Log entry point
touches: the two registries, the two enable toggles, the pending buffer,
and (as observations) everything written to stdout and every call made to
the hardware reporting sink.  The ErrorCodes singleton is carried along;
Log never mutates it. -/
structure State where
  levels : List (Int × Str)
  levelFormats : List (Int × Formatter)
  usestdout : Bool
  useNI : Bool
  pending : Str
  stdoutOut : Str
  niReports : List NIReport
  errorCodes : ECState

/-- Embeds Logger::FormatDefault (Logger.cpp lines 111-121):
"[levelname]: From shortfile: details\n", where the level name is read
through m_levels[msg.level] (default-inserting) and ShortFilename receives
the location converted to its "file:function:line" string.  snprintf with
a 512-byte buffer keeps at most 511 characters.  Returns the line and the
possibly-extended level registry. -/
def formatDefault (levels : List (Int × Str)) (msg : LogMessage) :
    Str × List (Int × Str) :=
  let q := mapIndex levels msg.level
  ((strOf "[" ++ q.1 ++ strOf "]: From "
      ++ shortFilename (locString msg.location)
      ++ strOf ": " ++ msg.details ++ strOf "\n").take 511,
   q.2)

/-- The nine components of the parseable record, in the order built at
Logger.cpp lines 138-143, before escaping; the level name is read through
m_levels[msg.level] (default-inserting).  Returns the components and the
possibly-extended level registry. -/
def parseComponents (ec : ECState) (levels : List (Int × Str))
    (msg : LogMessage) : List Str × List (Int × Str) :=
  let q := mapIndex levels msg.level
  ([intToStr msg.level, q.1, intToStr msg.code, ecGet ec msg.code,
    locString msg.location, intToStr msg.timestamp, msg.stacktrace,
    msg.originatingObject, msg.details],
   q.2)

/-- Embeds Logger::FormatParseable (Logger.cpp lines 134-155): escape each
component, append it followed by a comma, drop the final comma, and
terminate with a semicolon and newline. -/
def formatParseable (ec : ECState) (levels : List (Int × Str))
    (msg : LogMessage) : Str × List (Int × Str) :=
  let p := parseComponents ec levels msg
  (((p.1.foldl (fun acc f => acc ++ (escape f ++ [','])) []).dropLast)
      ++ [';', '\n'],
   p.2)

/-- The report ProcessNILog hands to HALSendError (Logger.cpp lines 76-80):
isError is whether the level is kNIError, and the location is passed as its
"file:function:line" string. -/
def niReportOf (msg : LogMessage) : NIReport :=
  { isError := decide (msg.level = kNIError), code := msg.code,
    details := msg.details, location := locString msg.location,
    stacktrace := msg.stacktrace }

/-- Embeds Logger::ProcessNILog (Logger.cpp lines 76-80). -/
def processNILog (msg : LogMessage) (s : State) : State :=
  { s with niReports := s.niReports ++ [niReportOf msg] }

/-- Embeds Logger::ProcessLog (Logger.cpp lines 85-92): format with the
custom formatter for the level when present, otherwise FormatDefault, and
write the result to stdout. -/
def processLog (msg : LogMessage) (s : State) : State :=
  match alookup msg.level s.levelFormats with
  | some f => { s with stdoutOut := s.stdoutOut ++ f msg }
  | none =>
    let p := formatDefault s.levels msg
    { s with levels := p.2, stdoutOut := s.stdoutOut ++ p.1 }

/-- Embeds Logger::ProcessCommon (Logger.cpp lines 97-105): when the given
formatted text is empty, format with the custom formatter for the level
when present, otherwise FormatParseable; append the result to the pending
buffer.  (The source's default argument is the empty string; every call
from Log passes it.) -/
def processCommon (msg : LogMessage) (formatted : Str) (s : State) : State :=
  if formatted.length = 0 then
    match alookup msg.level s.levelFormats with
    | some f => { s with pending := s.pending ++ f msg }
    | none =>
      let p := formatParseable s.errorCodes s.levels msg
      { s with levels := p.2, pending := s.pending ++ p.1 }
  else { s with pending := s.pending ++ formatted }

/-- The dispatch of Logger::Log on an already-built message
(Logger.cpp lines 63-70): hardware path for the two NILevel values when
enabled, otherwise console path when enabled, then always ProcessCommon. -/
def stepLogMsg (msg : LogMessage) (s : State) : State :=
  let s1 :=
    if msg.level = kNIWarning ∨ msg.level = kNIError then
      (if s.useNI then processNILog msg s else s)
    else
      (if s.usestdout then processLog msg s else s)
  processCommon msg [] s1

/-- Embeds the integer-code overload Logger::Log(level, code, details,
location, originator, depth) (Logger.cpp lines 57-71). -/
def stepLog (level code : Int) (details : Str) (loc : LogLocation)
    (orig : Str) (depth now : Int) (trace : Int → Str) (s : State) : State :=
  stepLogMsg (mkLogMessage level code details loc orig depth now trace) s

/-- Embeds the name overload Logger::Log(level, codename, details,
location, originator) (Logger.cpp lines 47-55): a null codename logs code
0; a codename that atoi parses to a non-zero value is used as the code
directly; otherwise the name is resolved through ErrorCodes::GetCode.  The
inner calls use the default capture depth 3. -/
def stepLogName (level : Int) (codename : Option Str) (details : Str)
    (loc : LogLocation) (orig : Str) (now : Int) (trace : Int → Str)
    (s : State) : State :=
  match codename with
  | none => stepLog level 0 details loc orig 3 now trace s
  | some cn =>
    if atoi cn ≠ 0 then stepLog level (atoi cn) details loc orig 3 now trace s
    else stepLog level (ecGetCode s.errorCodes cn) details loc orig 3 now trace s

/-- The numeric code the name overload resolves a codename to (the value
passed on to the integer overload at Logger.cpp lines 49-54). -/
def nameCode (ec : ECState) : Option Str → Int
  | none => 0
  | some cn => if atoi cn ≠ 0 then atoi cn else ecGetCode ec cn

/-- The line ProcessCommon appends for a message, computed from a state:
the custom formatter for the level when present, otherwise the parseable
record. -/
def bufferLine (s : State) (msg : LogMessage) : Str :=
  match alookup msg.level s.levelFormats with
  | some f => f msg
  | none => (formatParseable s.errorCodes s.levels msg).1

/-- The line ProcessLog writes to stdout for a message, computed from a
state: the custom formatter for the level when present, otherwise the
default human-readable line. -/
def consoleLine (s : State) (msg : LogMessage) : Str :=
  match alookup msg.level s.levelFormats with
  | some f => f msg
  | none => (formatDefault s.levels msg).1

/-- Embeds Logger::AddLevel (Logger.cpp lines 233-235):
m_levels[level] = name. -/
def stepAddLevel (s : State) (level : Int) (name : Str) : State :=
  { s with levels := mapInsert s.levels level name }

/-- Embeds Logger::AddFormatter (Logger.cpp lines 248-250):
m_levelFormats[level] = formatter. -/
def stepAddFormatter (s : State) (level : Int) (f : Formatter) : State :=
  { s with levelFormats := mapInsert s.levelFormats level f }

/-- Embeds Logger::SetStdoutEnable (Logger.cpp lines 215-217). -/
def stepSetStdoutEnable (s : State) (enabled : Bool) : State :=
  { s with usestdout := enabled }

/-- Embeds Logger::SetNIEnable (Logger.cpp line 226). -/
def stepSetNIEnable (s : State) (enabled : Bool) : State :=
  { s with useNI := enabled }

/-- One producer-side call to the Log entry point (either overload), with
its clock and stack-trace oracles. -/
inductive LogCall where
  | num (level code : Int) (details : Str) (loc : LogLocation) (orig : Str)
      (depth now : Int) (trace : Int → Str)
  | name (level : Int) (codename : Option Str) (details : Str)
      (loc : LogLocation) (orig : Str) (now : Int) (trace : Int → Str)

/-- Run one Log call against the state. -/
def stepCall : LogCall → State → State
  | .num level code details loc orig depth now trace, s =>
    stepLog level code details loc orig depth now trace s
  | .name level codename details loc orig now trace, s =>
    stepLogName level codename details loc orig now trace s

/-- Run a sequence of Log calls against the state. -/
def runCalls (calls : List LogCall) (s : State) : State :=
  calls.foldl (fun t c => stepCall c t) s

/-- The Logger singleton state right after construction: the seeded level
registry (Logger.h lines 135-136), no custom formatters, both toggles
enabled (Logger.h lines 150-151), empty buffer, and the constructed
ErrorCodes singleton. -/
def initState : State :=
  { levels := [(1, strOf "DEBUG"), (2, strOf "WARNING"), (3, strOf "ERROR")]
    levelFormats := []
    usestdout := true
    useNI := true
    pending := []
    stdoutOut := []
    niReports := []
    errorCodes := initErrorCodes }

/-- The producer-visible fields of two states agree except for the stdout
toggle and the text written to stdout: same registries, same hardware
toggle, same error-code tables, same pending buffer, same hardware
reports. -/
def Agree (t1 t2 : State) : Prop :=
  t1.levels = t2.levels ∧ t1.levelFormats = t2.levelFormats ∧
  t1.useNI = t2.useNI ∧ t1.errorCodes = t2.errorCodes ∧
  t1.pending = t2.pending ∧ t1.niReports = t2.niReports

end WpiLog

namespace WpiLog

theorem far_nil (f r : List Char) : findAndReplace f r [] = [] := by
  simp [findAndReplace]

theorem far_pos (f r : List Char) (c : Char) (rest : List Char)
    (h1 : f.isPrefixOf (c :: rest) = true) (h2 : f ≠ []) :
    findAndReplace f r (c :: rest)
      = r ++ findAndReplace f r (List.drop f.length (c :: rest)) := by
  rw [findAndReplace]
  simp [h1, h2]

theorem far_neg (f r : List Char) (c : Char) (rest : List Char)
    (h1 : f.isPrefixOf (c :: rest) = false) :
    findAndReplace f r (c :: rest) = c :: findAndReplace f r rest := by
  rw [findAndReplace]
  simp [h1]

end WpiLog

namespace WpiLog

@[simp] theorem cmap_nil (g : Char → List Char) : cmap g [] = [] := rfl

@[simp] theorem cmap_cons (g : Char → List Char) (c : Char) (t : List Char) :
    cmap g (c :: t) = g c ++ cmap g t := rfl

theorem cmap_append (g : Char → List Char) (l1 l2 : List Char) :
    cmap g (l1 ++ l2) = cmap g l1 ++ cmap g l2 := by
  induction l1 with
  | nil => simp
  | cons c t ih => simp [ih]

theorem cmap_congr {f g : Char → List Char} (h : ∀ c, f c = g c)
    (s : List Char) : cmap f s = cmap g s := by
  induction s with
  | nil => rfl
  | cons c t ih => simp [h c, ih]

theorem cmap_cmap (f g : Char → List Char) (s : List Char) :
    cmap g (cmap f s) = cmap (fun c => cmap g (f c)) s := by
  induction s with
  | nil => rfl
  | cons c t ih => simp [cmap_append, ih]

theorem far_single (a : Char) (r : List Char) (s : List Char) :
    findAndReplace [a] r s = cmap (fun c => if c = a then r else [c]) s := by
  induction s with
  | nil => simp [far_nil]
  | cons c t ih =>
    by_cases hca : c = a
    · subst hca
      rw [far_pos [c] r c t (by simp [List.isPrefixOf]) (by simp)]
      simp [ih]
    · rw [far_neg [a] r c t (by simp [List.isPrefixOf]; exact fun h => absurd h.symm hca)]
      simp [hca, ih]

theorem escape_eq_cmap (s : Str) : escape s = cmap esc s := by
  unfold escape
  rw [far_single '\\' ['\\', '\\'] s]
  rw [far_single ',' ['\\', ','],
      far_single ';' ['\\', ';'],
      cmap_cmap, cmap_cmap]
  exact cmap_congr (fun c => (cmap_cmap e2 e3 (e1 c)).symm) s

end WpiLog


namespace WpiLog

theorem isPre1_true (a : Char) (l : List Char) :
    ([a].isPrefixOf (a :: l)) = true := by
  simp [List.isPrefixOf]

theorem isPre1_false (b c : Char) (l : List Char) (h : b ≠ c) :
    ([b].isPrefixOf (c :: l)) = false := by
  simp [List.isPrefixOf, h]

theorem isPre2_true (a b : Char) (l : List Char) :
    ([a, b].isPrefixOf (a :: b :: l)) = true := by
  simp [List.isPrefixOf]

theorem isPre2_false_fst (a b c : Char) (l : List Char) (h : a ≠ c) :
    ([a, b].isPrefixOf (c :: l)) = false := by
  simp [List.isPrefixOf, h]

theorem isPre2_false_snd (a b c d : Char) (l : List Char) (h : b ≠ d) :
    ([a, b].isPrefixOf (c :: d :: l)) = false := by
  simp [List.isPrefixOf, h]

theorem isPre2_false_tail (a b c : Char) (l : List Char)
    (h : ([b].isPrefixOf l) = false) :
    ([a, b].isPrefixOf (c :: l)) = false := by
  simp [List.isPrefixOf] at h ⊢
  intro _
  exact h

theorem esc_bs : esc '\\' = ['\\', '\\'] := rfl
theorem esc_comma : esc ',' = ['\\', ','] := rfl
theorem esc_semi : esc ';' = ['\\', ';'] := rfl

theorem esc_other (c : Char) (h1 : c ≠ '\\') (h2 : c ≠ ',') (h3 : c ≠ ';') :
    esc c = [c] := by
  simp [esc, e1, e2, e3, h1, h2, h3]

theorem semi_not_head (t : Str) : ([';'].isPrefixOf (cmap esc t)) = false := by
  cases t with
  | nil => rfl
  | cons c t2 =>
    by_cases h1 : c = '\\'
    · subst h1
      rw [cmap_cons, esc_bs]
      exact isPre1_false ';' '\\' _ (by decide)
    · by_cases h2 : c = ','
      · subst h2
        rw [cmap_cons, esc_comma]
        exact isPre1_false ';' '\\' _ (by decide)
      · by_cases h3 : c = ';'
        · subst h3
          rw [cmap_cons, esc_semi]
          exact isPre1_false ';' '\\' _ (by decide)
        · rw [cmap_cons, esc_other c h1 h2 h3]
          exact isPre1_false ';' c _ (fun h => absurd h.symm h3)

theorem comma_not_head (t : Str) :
    ([','].isPrefixOf (cmap esc1 t)) = false := by
  cases t with
  | nil => rfl
  | cons c t2 =>
    by_cases h1 : c = '\\'
    · subst h1
      have hbs : esc1 '\\' = ['\\', '\\'] := rfl
      rw [cmap_cons, hbs]
      exact isPre1_false ',' '\\' _ (by decide)
    · by_cases h2 : c = ','
      · subst h2
        have hcm : esc1 ',' = ['\\', ','] := rfl
        rw [cmap_cons, hcm]
        exact isPre1_false ',' '\\' _ (by decide)
      · have hot : esc1 c = [c] := by simp [esc1, h1, h2]
        rw [cmap_cons, hot]
        exact isPre1_false ',' c _ (fun h => absurd h.symm h2)

theorem u1_esc (s : Str) :
    findAndReplace ['\\', ';'] [';'] (cmap esc s) = cmap esc1 s := by
  induction s with
  | nil => simp [far_nil]
  | cons c t ih =>
    by_cases h1 : c = '\\'
    · subst h1
      rw [cmap_cons, esc_bs]
      show findAndReplace ['\\', ';'] [';'] ('\\' :: '\\' :: cmap esc t)
          = cmap esc1 ('\\' :: t)
      rw [far_neg ['\\', ';'] [';'] '\\' ('\\' :: cmap esc t)
        (isPre2_false_snd '\\' ';' '\\' '\\' _ (by decide))]
      rw [far_neg ['\\', ';'] [';'] '\\' (cmap esc t)
        (isPre2_false_tail '\\' ';' '\\' _ (semi_not_head t))]
      rw [ih]
      rfl
    · by_cases h2 : c = ','
      · subst h2
        rw [cmap_cons, esc_comma]
        show findAndReplace ['\\', ';'] [';'] ('\\' :: ',' :: cmap esc t)
            = cmap esc1 (',' :: t)
        rw [far_neg ['\\', ';'] [';'] '\\' (',' :: cmap esc t)
          (isPre2_false_snd '\\' ';' '\\' ',' _ (by decide))]
        rw [far_neg ['\\', ';'] [';'] ',' (cmap esc t)
          (isPre2_false_fst '\\' ';' ',' _ (by decide))]
        rw [ih]
        rfl
      · by_cases h3 : c = ';'
        · subst h3
          rw [cmap_cons, esc_semi]
          show findAndReplace ['\\', ';'] [';'] ('\\' :: ';' :: cmap esc t)
              = cmap esc1 (';' :: t)
          rw [far_pos ['\\', ';'] [';'] '\\' (';' :: cmap esc t)
            (isPre2_true '\\' ';' _) (by simp)]
          simp only [List.length_cons, List.length_nil, List.drop_succ_cons,
            List.drop_zero, List.drop]
          rw [ih]
          rfl
        · rw [cmap_cons, esc_other c h1 h2 h3]
          show findAndReplace ['\\', ';'] [';'] (c :: cmap esc t)
              = cmap esc1 (c :: t)
          rw [far_neg ['\\', ';'] [';'] c (cmap esc t)
            (isPre2_false_fst '\\' ';' c _ (fun h => absurd h.symm h1))]
          rw [ih]
          have : esc1 c = [c] := by simp [esc1, h1, h2]
          rw [cmap_cons, this]
          rfl

theorem u2_esc1 (s : Str) :
    findAndReplace ['\\', ','] [','] (cmap esc1 s) = cmap esc2 s := by
  induction s with
  | nil => simp [far_nil]
  | cons c t ih =>
    by_cases h1 : c = '\\'
    · subst h1
      have hbs : esc1 '\\' = ['\\', '\\'] := rfl
      rw [cmap_cons, hbs]
      show findAndReplace ['\\', ','] [','] ('\\' :: '\\' :: cmap esc1 t)
          = cmap esc2 ('\\' :: t)
      rw [far_neg ['\\', ','] [','] '\\' ('\\' :: cmap esc1 t)
        (isPre2_false_snd '\\' ',' '\\' '\\' _ (by decide))]
      rw [far_neg ['\\', ','] [','] '\\' (cmap esc1 t)
        (isPre2_false_tail '\\' ',' '\\' _ (comma_not_head t))]
      rw [ih]
      rfl
    · by_cases h2 : c = ','
      · subst h2
        have hcm : esc1 ',' = ['\\', ','] := rfl
        rw [cmap_cons, hcm]
        show findAndReplace ['\\', ','] [','] ('\\' :: ',' :: cmap esc1 t)
            = cmap esc2 (',' :: t)
        rw [far_pos ['\\', ','] [','] '\\' (',' :: cmap esc1 t)
          (isPre2_true '\\' ',' _) (by simp)]
        simp only [List.length_cons, List.length_nil, List.drop_succ_cons,
          List.drop_zero, List.drop]
        rw [ih]
        rfl
      · have hot : esc1 c = [c] := by simp [esc1, h1, h2]
        rw [cmap_cons, hot]
        show findAndReplace ['\\', ','] [','] (c :: cmap esc1 t)
            = cmap esc2 (c :: t)
        rw [far_neg ['\\', ','] [','] c (cmap esc1 t)
          (isPre2_false_fst '\\' ',' c _ (fun h => absurd h.symm h1))]
        rw [ih]
        have : esc2 c = [c] := by simp [esc2, h1]
        rw [cmap_cons, this]
        rfl

theorem u3_esc2 (s : Str) :
    findAndReplace ['\\', '\\'] ['\\'] (cmap esc2 s) = s := by
  induction s with
  | nil => simp [far_nil]
  | cons c t ih =>
    by_cases h1 : c = '\\'
    · subst h1
      have hbs : esc2 '\\' = ['\\', '\\'] := rfl
      rw [cmap_cons, hbs]
      show findAndReplace ['\\', '\\'] ['\\'] ('\\' :: '\\' :: cmap esc2 t)
          = '\\' :: t
      rw [far_pos ['\\', '\\'] ['\\'] '\\' ('\\' :: cmap esc2 t)
        (isPre2_true '\\' '\\' _) (by simp)]
      simp only [List.length_cons, List.length_nil, List.drop_succ_cons,
        List.drop_zero, List.drop]
      rw [ih]
      rfl
    · have hot : esc2 c = [c] := by simp [esc2, h1]
      rw [cmap_cons, hot]
      show findAndReplace ['\\', '\\'] ['\\'] (c :: cmap esc2 t) = c :: t
      rw [far_neg ['\\', '\\'] ['\\'] c (cmap esc2 t)
        (isPre2_false_fst '\\' '\\' c _ (fun h => absurd h.symm h1))]
      rw [ih]

/-- Claim C3: escaping a string with the three FindAndReplace
substitutions of FormatParseable (each backslash doubled first, then each
comma, then each semicolon protected with a backslash) and then
un-escaping by reversing the three substitutions in reverse order
reproduces the original string exactly, for every string. -/
theorem escape_unescape_roundtrip (s : Str) : unescape (escape s) = s := by
  rw [escape_eq_cmap]
  unfold unescape
  rw [u1_esc, u2_esc1, u3_esc2]

end WpiLog

namespace WpiLog

theorem alookup_append_some {κ α : Type} [DecidableEq κ] (a : κ)
    (m m2 : List (κ × α)) (v : α) (h : alookup a m = some v) :
    alookup a (m ++ m2) = some v := by
  induction m with
  | nil => simp [alookup] at h
  | cons p t ih =>
    rw [List.cons_append]
    rw [alookup] at h ⊢
    by_cases hp : p.1 = a
    · simp [hp] at h ⊢
      exact h
    · simp [hp] at h ⊢
      exact ih h

theorem alookup_append_none {κ α : Type} [DecidableEq κ] (a : κ)
    (m m2 : List (κ × α)) (h : alookup a m = none) :
    alookup a (m ++ m2) = alookup a m2 := by
  induction m with
  | nil => simp
  | cons p t ih =>
    rw [List.cons_append]
    rw [alookup] at h ⊢
    by_cases hp : p.1 = a
    · simp [hp] at h
    · simp [hp] at h ⊢
      exact ih h

theorem mapIndex_fst_idem (m : List (Int × Str)) (k : Int) :
    (mapIndex (mapIndex m k).2 k).1 = (mapIndex m k).1 := by
  unfold mapIndex
  cases h : alookup k m with
  | some v => simp [h]
  | none =>
    simp only [h]
    rw [alookup_append_none k m [(k, [])] h]
    simp [alookup]

theorem mapIndex_snd_idem (m : List (Int × Str)) (k : Int) :
    (mapIndex (mapIndex m k).2 k).2 = (mapIndex m k).2 := by
  unfold mapIndex
  cases h : alookup k m with
  | some v => simp [h]
  | none =>
    simp only [h]
    rw [alookup_append_none k m [(k, [])] h]
    simp [alookup]

theorem dropLast_cons_ne (a : Char) (l : List Char) (h : l ≠ []) :
    (a :: l).dropLast = a :: l.dropLast := by
  cases l with
  | nil => exact absurd rfl h
  | cons b t => rfl

theorem dropLast_append_ne (l1 l2 : List Char) (h : l2 ≠ []) :
    (l1 ++ l2).dropLast = l1 ++ l2.dropLast := by
  induction l1 with
  | nil => simp
  | cons a t ih =>
    rw [List.cons_append, dropLast_cons_ne a (t ++ l2) (by
      intro hc
      rcases List.append_eq_nil.mp hc with ⟨_, h2⟩
      exact h h2)]
    rw [ih, List.cons_append]

end WpiLog

namespace WpiLog

theorem dropLast_concat_chr (l : List Char) (a : Char) :
    (l ++ [a]).dropLast = l := by
  rw [dropLast_append_ne l [a] (by simp)]
  simp

/-- Claim C2: for every message, the parseable (buffer) formatter produces
a single record of exactly nine escaped fields, in the order numeric
level, level name, numeric code, resolved code message (ErrorCodes::Get),
"file:function:line" location string, timestamp in integer milliseconds,
stack trace, originator, details, joined with commas and terminated by a
semicolon followed by a newline. -/
theorem parseable_record_fields (ec : ECState) (levels : List (Int × Str))
    (msg : LogMessage) :
    (formatParseable ec levels msg).1 =
      escape (intToStr msg.level) ++ [','] ++
      escape (mapIndex levels msg.level).1 ++ [','] ++
      escape (intToStr msg.code) ++ [','] ++
      escape (ecGet ec msg.code) ++ [','] ++
      escape (locString msg.location) ++ [','] ++
      escape (intToStr msg.timestamp) ++ [','] ++
      escape msg.stacktrace ++ [','] ++
      escape msg.originatingObject ++ [','] ++
      escape msg.details ++ [';', '\n'] := by
  unfold formatParseable parseComponents
  simp only [List.foldl_cons, List.foldl_nil]
  rw [show ∀ (x y : Str), x ++ (y ++ [',']) = (x ++ y) ++ [','] from
    fun x y => (List.append_assoc x y [',']).symm]
  rw [dropLast_concat_chr]
  simp [List.append_assoc]

end WpiLog

namespace WpiLog

theorem formatParseable_fst_mapIndex (ec : ECState) (m : List (Int × Str))
    (msg : LogMessage) :
    (formatParseable ec (mapIndex m msg.level).2 msg).1
      = (formatParseable ec m msg).1 := by
  unfold formatParseable parseComponents
  simp only [mapIndex_fst_idem, mapIndex_snd_idem]

theorem formatParseable_snd (ec : ECState) (m : List (Int × Str))
    (msg : LogMessage) :
    (formatParseable ec m msg).2 = (mapIndex m msg.level).2 := rfl

theorem processNILog_fields (msg : LogMessage) (s : State) :
    (processNILog msg s).levels = s.levels ∧
    (processNILog msg s).levelFormats = s.levelFormats ∧
    (processNILog msg s).pending = s.pending ∧
    (processNILog msg s).stdoutOut = s.stdoutOut ∧
    (processNILog msg s).errorCodes = s.errorCodes ∧
    (processNILog msg s).usestdout = s.usestdout ∧
    (processNILog msg s).useNI = s.useNI ∧
    (processNILog msg s).niReports = s.niReports ++ [niReportOf msg] := by
  unfold processNILog
  exact ⟨rfl, rfl, rfl, rfl, rfl, rfl, rfl, rfl⟩

theorem processLog_levels (msg : LogMessage) (s : State) :
    (processLog msg s).levels
      = (if (alookup msg.level s.levelFormats).isSome then s.levels
         else (mapIndex s.levels msg.level).2) := by
  unfold processLog
  cases h : alookup msg.level s.levelFormats with
  | some f => simp [h, formatDefault]
  | none => simp [h, formatDefault]

theorem processLog_pending (msg : LogMessage) (s : State) :
    (processLog msg s).pending = s.pending := by
  unfold processLog
  cases h : alookup msg.level s.levelFormats <;> simp

theorem processLog_stdoutOut (msg : LogMessage) (s : State) :
    (processLog msg s).stdoutOut = s.stdoutOut ++ consoleLine s msg := by
  unfold processLog consoleLine
  cases h : alookup msg.level s.levelFormats <;> simp [h]

theorem processLog_rest (msg : LogMessage) (s : State) :
    (processLog msg s).levelFormats = s.levelFormats ∧
    (processLog msg s).errorCodes = s.errorCodes ∧
    (processLog msg s).usestdout = s.usestdout ∧
    (processLog msg s).useNI = s.useNI ∧
    (processLog msg s).niReports = s.niReports := by
  unfold processLog
  cases h : alookup msg.level s.levelFormats <;>
    exact ⟨rfl, rfl, rfl, rfl, rfl⟩

theorem processCommon_pending (msg : LogMessage) (s : State) :
    (processCommon msg [] s).pending = s.pending ++ bufferLine s msg := by
  unfold processCommon bufferLine
  cases h : alookup msg.level s.levelFormats <;> simp [h]

theorem processCommon_levels (msg : LogMessage) (s : State) :
    (processCommon msg [] s).levels
      = (if (alookup msg.level s.levelFormats).isSome then s.levels
         else (mapIndex s.levels msg.level).2) := by
  unfold processCommon
  cases h : alookup msg.level s.levelFormats with
  | some f => simp [h]
  | none => simp [h, formatParseable_snd]

theorem processCommon_rest (msg : LogMessage) (s : State) :
    (processCommon msg [] s).levelFormats = s.levelFormats ∧
    (processCommon msg [] s).errorCodes = s.errorCodes ∧
    (processCommon msg [] s).usestdout = s.usestdout ∧
    (processCommon msg [] s).useNI = s.useNI ∧
    (processCommon msg [] s).niReports = s.niReports ∧
    (processCommon msg [] s).stdoutOut = s.stdoutOut := by
  unfold processCommon
  cases h : alookup msg.level s.levelFormats <;>
    exact ⟨rfl, rfl, rfl, rfl, rfl, rfl⟩

theorem bufferLine_of_fields {s1 s2 : State} (msg : LogMessage)
    (hf : s1.levelFormats = s2.levelFormats)
    (he : s1.errorCodes = s2.errorCodes) (hl : s1.levels = s2.levels) :
    bufferLine s1 msg = bufferLine s2 msg := by
  unfold bufferLine
  rw [hf, he, hl]

end WpiLog


namespace WpiLog

theorem bufferLine_processLog (msg : LogMessage) (s : State) :
    bufferLine (processLog msg s) msg = bufferLine s msg := by
  unfold bufferLine
  rw [(processLog_rest msg s).1, (processLog_rest msg s).2.1]
  cases h : alookup msg.level s.levelFormats with
  | some f => simp [h]
  | none =>
    simp only [h]
    rw [processLog_levels, h]
    simp only [Option.isSome_none, Bool.false_eq_true, if_false]
    exact formatParseable_fst_mapIndex s.errorCodes s.levels msg

theorem stepLogMsg_pending (msg : LogMessage) (s : State) :
    (stepLogMsg msg s).pending = s.pending ++ bufferLine s msg := by
  unfold stepLogMsg
  by_cases hni : msg.level = kNIWarning ∨ msg.level = kNIError
  · rw [if_pos hni]
    by_cases hu : s.useNI = true
    · rw [if_pos hu, processCommon_pending, (processNILog_fields msg s).2.2.1]
      congr 1
    · rw [if_neg hu]
      exact processCommon_pending msg s
  · rw [if_neg hni]
    by_cases hs : s.usestdout = true
    · rw [if_pos hs, processCommon_pending, processLog_pending]
      congr 1
      exact bufferLine_processLog msg s
    · rw [if_neg hs]
      exact processCommon_pending msg s

theorem stepLogMsg_levels (msg : LogMessage) (s : State) :
    (stepLogMsg msg s).levels
      = (if (alookup msg.level s.levelFormats).isSome then s.levels
         else (mapIndex s.levels msg.level).2) := by
  unfold stepLogMsg
  by_cases hni : msg.level = kNIWarning ∨ msg.level = kNIError
  · rw [if_pos hni]
    by_cases hu : s.useNI = true
    · rw [if_pos hu, processCommon_levels, (processNILog_fields msg s).2.1,
        (processNILog_fields msg s).1]
    · rw [if_neg hu]
      exact processCommon_levels msg s
  · rw [if_neg hni]
    by_cases hs : s.usestdout = true
    · rw [if_pos hs, processCommon_levels, (processLog_rest msg s).1,
        processLog_levels]
      cases h : alookup msg.level s.levelFormats with
      | some f => simp [h]
      | none =>
        simp only [h, Option.isSome_none, Bool.false_eq_true, if_false]
        exact mapIndex_snd_idem s.levels msg.level
    · rw [if_neg hs]
      exact processCommon_levels msg s

theorem stepLogMsg_niReports (msg : LogMessage) (s : State) :
    (stepLogMsg msg s).niReports
      = s.niReports ++
        (if (msg.level = kNIWarning ∨ msg.level = kNIError) ∧ s.useNI = true
         then [niReportOf msg] else []) := by
  unfold stepLogMsg
  by_cases hni : msg.level = kNIWarning ∨ msg.level = kNIError
  · rw [if_pos hni]
    by_cases hu : s.useNI = true
    · rw [if_pos hu, (processCommon_rest msg (processNILog msg s)).2.2.2.2.1,
        (processNILog_fields msg s).2.2.2.2.2.2.2, if_pos ⟨hni, hu⟩]
    · rw [if_neg hu, (processCommon_rest msg s).2.2.2.2.1,
        if_neg (fun hc => hu hc.2)]
      simp
  · rw [if_neg hni]
    by_cases hs : s.usestdout = true
    · rw [if_pos hs, (processCommon_rest msg (processLog msg s)).2.2.2.2.1,
        (processLog_rest msg s).2.2.2.2, if_neg (fun hc => hni hc.1)]
      simp
    · rw [if_neg hs, (processCommon_rest msg s).2.2.2.2.1,
        if_neg (fun hc => hni hc.1)]
      simp

theorem stepLogMsg_stdoutOut (msg : LogMessage) (s : State) :
    (stepLogMsg msg s).stdoutOut
      = s.stdoutOut ++
        (if ¬(msg.level = kNIWarning ∨ msg.level = kNIError)
            ∧ s.usestdout = true
         then consoleLine s msg else []) := by
  unfold stepLogMsg
  by_cases hni : msg.level = kNIWarning ∨ msg.level = kNIError
  · rw [if_pos hni]
    by_cases hu : s.useNI = true
    · rw [if_pos hu, (processCommon_rest msg (processNILog msg s)).2.2.2.2.2,
        (processNILog_fields msg s).2.2.2.1, if_neg (fun hc => hc.1 hni)]
      simp
    · rw [if_neg hu, (processCommon_rest msg s).2.2.2.2.2,
        if_neg (fun hc => hc.1 hni)]
      simp
  · rw [if_neg hni]
    by_cases hs : s.usestdout = true
    · rw [if_pos hs, (processCommon_rest msg (processLog msg s)).2.2.2.2.2,
        processLog_stdoutOut, if_pos ⟨hni, hs⟩]
    · rw [if_neg hs, (processCommon_rest msg s).2.2.2.2.2,
        if_neg (fun hc => hs hc.2)]
      simp

theorem stepLogMsg_rest (msg : LogMessage) (s : State) :
    (stepLogMsg msg s).levelFormats = s.levelFormats ∧
    (stepLogMsg msg s).errorCodes = s.errorCodes ∧
    (stepLogMsg msg s).usestdout = s.usestdout ∧
    (stepLogMsg msg s).useNI = s.useNI := by
  unfold stepLogMsg
  by_cases hni : msg.level = kNIWarning ∨ msg.level = kNIError
  · rw [if_pos hni]
    by_cases hu : s.useNI = true
    · rw [if_pos hu]
      refine ⟨?_, ?_, ?_, ?_⟩
      · rw [(processCommon_rest msg (processNILog msg s)).1,
          (processNILog_fields msg s).2.1]
      · rw [(processCommon_rest msg (processNILog msg s)).2.1,
          (processNILog_fields msg s).2.2.2.2.1]
      · rw [(processCommon_rest msg (processNILog msg s)).2.2.1,
          (processNILog_fields msg s).2.2.2.2.2.1]
      · rw [(processCommon_rest msg (processNILog msg s)).2.2.2.1,
          (processNILog_fields msg s).2.2.2.2.2.2.1]
    · rw [if_neg hu]
      exact ⟨(processCommon_rest msg s).1, (processCommon_rest msg s).2.1,
        (processCommon_rest msg s).2.2.1, (processCommon_rest msg s).2.2.2.1⟩
  · rw [if_neg hni]
    by_cases hs : s.usestdout = true
    · rw [if_pos hs]
      refine ⟨?_, ?_, ?_, ?_⟩
      · rw [(processCommon_rest msg (processLog msg s)).1,
          (processLog_rest msg s).1]
      · rw [(processCommon_rest msg (processLog msg s)).2.1,
          (processLog_rest msg s).2.1]
      · rw [(processCommon_rest msg (processLog msg s)).2.2.1,
          (processLog_rest msg s).2.2.1]
      · rw [(processCommon_rest msg (processLog msg s)).2.2.2.1,
          (processLog_rest msg s).2.2.2.1]
    · rw [if_neg hs]
      exact ⟨(processCommon_rest msg s).1, (processCommon_rest msg s).2.1,
        (processCommon_rest msg s).2.2.1, (processCommon_rest msg s).2.2.2.1⟩

end WpiLog

namespace WpiLog

/-- Claim C6: every call to the integer-code Log overload appends exactly
one buffer-formatted record to the pending buffer — the custom formatter
for the level when registered, the parseable record otherwise — for every
level, every toggle configuration and both dispatch paths; and the name
overload does the same with the code it resolves. -/
theorem log_appends_single_record (level code : Int) (details : Str)
    (loc : LogLocation) (orig : Str) (depth now : Int) (trace : Int → Str)
    (s : State) :
    ((stepLog level code details loc orig depth now trace s).pending
        = s.pending ++
          bufferLine s (mkLogMessage level code details loc orig depth now trace))
    ∧ ∀ codename,
        (stepLogName level codename details loc orig now trace s).pending
          = s.pending ++
            bufferLine s
              (mkLogMessage level (nameCode s.errorCodes codename) details
                loc orig 3 now trace) := by
  constructor
  · exact stepLogMsg_pending _ s
  · intro codename
    cases codename with
    | none => exact stepLogMsg_pending _ s
    | some cn =>
      simp only [stepLogName, nameCode]
      by_cases h : atoi cn ≠ 0
      · rw [if_pos h, if_pos h]
        exact stepLogMsg_pending _ s
      · rw [if_neg h, if_neg h]
        exact stepLogMsg_pending _ s

/-- Claim C10: a null codename pointer is handled without failure — the
name overload of Log with a null codename behaves exactly as the integer
overload with code 0 at the same level and the default capture depth, and
in particular appends exactly one buffer entry. -/
theorem null_codename_logs_code_zero (level : Int) (details : Str)
    (loc : LogLocation) (orig : Str) (now : Int) (trace : Int → Str)
    (s : State) :
    stepLogName level none details loc orig now trace s
        = stepLog level 0 details loc orig 3 now trace s
    ∧ (stepLogName level none details loc orig now trace s).pending
        = s.pending ++
          bufferLine s (mkLogMessage level 0 details loc orig 3 now trace) :=
  ⟨rfl, stepLogMsg_pending _ s⟩

/-- Claim C4 (amended): in the source the two hardware-channel values
kNIWarning = 2 and kNIError = 3 numerically coincide with the generic
kWARNING = 2 and kERROR = 3, so the level spaces are not disjoint.  What
holds is: Log takes the hardware-reporting path exactly when the level is
2 or 3 (and the hardware toggle is on) — so generic WARNING and ERROR go
to the hardware sink — and takes the console path exactly when the level
is neither 2 nor 3 (and stdout is on); for the hardware-channel values the
console path is never taken. -/
theorem dispatch_paths_by_level (level code : Int) (details : Str)
    (loc : LogLocation) (orig : Str) (depth now : Int) (trace : Int → Str)
    (s : State) :
    ((stepLog level code details loc orig depth now trace s).niReports
        = s.niReports ++
          (if (level = kNIWarning ∨ level = kNIError) ∧ s.useNI = true
           then [niReportOf
                  (mkLogMessage level code details loc orig depth now trace)]
           else []))
    ∧ (stepLog level code details loc orig depth now trace s).stdoutOut
        = s.stdoutOut ++
          (if ¬(level = kNIWarning ∨ level = kNIError) ∧ s.usestdout = true
           then consoleLine s
                  (mkLogMessage level code details loc orig depth now trace)
           else []) :=
  ⟨stepLogMsg_niReports _ s, stepLogMsg_stdoutOut _ s⟩

/-- Counterexample to claim C4 as stated: level 2 lies in the generic
level space (kWARNING = 2), yet logging at level 2 from the initial state
calls the external reporting sink (one HALSendError call is recorded, with
isError = false) and never writes to the console. -/
theorem generic_warning_takes_hardware_path :
    (stepLog kWARNING 0 (strOf "d") ⟨strOf "a.cpp", strOf "f", 1⟩ [] 3 0
        (fun _ => []) initState).niReports
      = [{ isError := false, code := 0, details := strOf "d",
           location := strOf "a.cpp:f:1", stacktrace := [] }]
    ∧ (stepLog kWARNING 0 (strOf "d") ⟨strOf "a.cpp", strOf "f", 1⟩ [] 3 0
        (fun _ => []) initState).stdoutOut = [] := by
  constructor
  · rfl
  · rfl

end WpiLog

namespace WpiLog

theorem agree_stepLogMsg {t1 t2 : State} (msg : LogMessage)
    (h : Agree t1 t2) : Agree (stepLogMsg msg t1) (stepLogMsg msg t2) := by
  obtain ⟨hl, hf, hn, he, hp, hr⟩ := h
  refine ⟨?_, ?_, ?_, ?_, ?_, ?_⟩
  · rw [stepLogMsg_levels, stepLogMsg_levels, hl, hf]
  · rw [(stepLogMsg_rest msg t1).1, (stepLogMsg_rest msg t2).1, hf]
  · rw [(stepLogMsg_rest msg t1).2.2.2, (stepLogMsg_rest msg t2).2.2.2, hn]
  · rw [(stepLogMsg_rest msg t1).2.1, (stepLogMsg_rest msg t2).2.1, he]
  · rw [stepLogMsg_pending, stepLogMsg_pending, hp,
      bufferLine_of_fields msg hf he hl]
  · rw [stepLogMsg_niReports, stepLogMsg_niReports, hr, hn]

theorem agree_stepCall {t1 t2 : State} (c : LogCall) (h : Agree t1 t2) :
    Agree (stepCall c t1) (stepCall c t2) := by
  cases c with
  | num level code details loc orig depth now trace =>
    exact agree_stepLogMsg _ h
  | name level codename details loc orig now trace =>
    cases codename with
    | none => exact agree_stepLogMsg _ h
    | some cn =>
      have he : t1.errorCodes = t2.errorCodes := h.2.2.2.1
      simp only [stepCall, stepLogName]
      by_cases ha : atoi cn ≠ 0
      · rw [if_pos ha, if_pos ha]
        exact agree_stepLogMsg _ h
      · rw [if_neg ha, if_neg ha, he]
        exact agree_stepLogMsg _ h

theorem agree_runCalls {t1 t2 : State} (calls : List LogCall)
    (h : Agree t1 t2) : Agree (runCalls calls t1) (runCalls calls t2) := by
  induction calls generalizing t1 t2 with
  | nil => exact h
  | cons c rest ih =>
    simp only [runCalls, List.foldl_cons]
    exact ih (agree_stepCall c h)

theorem stepCall_usestdout (c : LogCall) (t : State) :
    (stepCall c t).usestdout = t.usestdout := by
  cases c with
  | num level code details loc orig depth now trace =>
    exact (stepLogMsg_rest _ t).2.2.1
  | name level codename details loc orig now trace =>
    cases codename with
    | none => exact (stepLogMsg_rest _ t).2.2.1
    | some cn =>
      simp only [stepCall, stepLogName]
      by_cases ha : atoi cn ≠ 0
      · rw [if_pos ha]
        exact (stepLogMsg_rest _ t).2.2.1
      · rw [if_neg ha]
        exact (stepLogMsg_rest _ t).2.2.1

theorem stepCall_stdoutOut_off (c : LogCall) (t : State)
    (h : t.usestdout = false) : (stepCall c t).stdoutOut = t.stdoutOut := by
  have key : ∀ msg, (stepLogMsg msg t).stdoutOut = t.stdoutOut := by
    intro msg
    rw [stepLogMsg_stdoutOut,
      if_neg (fun hc => by rw [h] at hc; exact absurd hc.2 (by simp))]
    simp
  cases c with
  | num level code details loc orig depth now trace => exact key _
  | name level codename details loc orig now trace =>
    cases codename with
    | none => exact key _
    | some cn =>
      simp only [stepCall, stepLogName]
      by_cases ha : atoi cn ≠ 0
      · rw [if_pos ha]; exact key _
      · rw [if_neg ha]; exact key _

theorem runCalls_stdoutOut_off (calls : List LogCall) (t : State)
    (h : t.usestdout = false) :
    (runCalls calls t).stdoutOut = t.stdoutOut := by
  induction calls generalizing t with
  | nil => rfl
  | cons c rest ih =>
    simp only [runCalls, List.foldl_cons]
    rw [show (List.foldl (fun u d => stepCall d u) (stepCall c t) rest)
        = runCalls rest (stepCall c t) from rfl]
    rw [ih (stepCall c t) (by rw [stepCall_usestdout, h]),
      stepCall_stdoutOut_off c t h]

/-- Claim C5: for every sequence of Log calls and every starting
configuration (levels, formatters, error codes, buffer), the two runs that
differ only in whether the stdout path is enabled leave identical pending
buffers — and identical level registries, hardware reports and formatter
registries — while the disabled run writes nothing to stdout. -/
theorem stdout_toggle_noninterference (calls : List LogCall) (s : State) :
    (runCalls calls { s with usestdout := true }).pending
        = (runCalls calls { s with usestdout := false }).pending
    ∧ (runCalls calls { s with usestdout := true }).levels
        = (runCalls calls { s with usestdout := false }).levels
    ∧ (runCalls calls { s with usestdout := true }).niReports
        = (runCalls calls { s with usestdout := false }).niReports
    ∧ (runCalls calls { s with usestdout := false }).stdoutOut
        = s.stdoutOut := by
  have h0 : Agree { s with usestdout := true } { s with usestdout := false } :=
    ⟨rfl, rfl, rfl, rfl, rfl, rfl⟩
  have h := agree_runCalls calls h0
  exact ⟨h.2.2.2.2.1, h.1, h.2.2.2.2.2,
    runCalls_stdoutOut_off calls { s with usestdout := false } rfl⟩

end WpiLog

namespace WpiLog

theorem alookup0_mapIndex (m : List (Int × Str)) (k : Int)
    (h : alookup 0 m = none ∨ alookup 0 m = some []) :
    alookup 0 (mapIndex m k).2 = none
      ∨ alookup 0 (mapIndex m k).2 = some [] := by
  unfold mapIndex
  cases hk : alookup k m with
  | some v => exact h
  | none =>
    simp only
    cases h0 : alookup (0 : Int) m with
    | some v =>
      rcases h with h | h
      · rw [h0] at h; exact absurd h (by simp)
      · rw [h0] at h
        right
        rw [alookup_append_some 0 m [(k, [])] v h0, h]
    | none =>
      rw [alookup_append_none 0 m [(k, [])] h0]
      by_cases hk0 : k = (0 : Int)
      · right
        simp [alookup, hk0]
      · left
        simp [alookup, hk0]

theorem stepCall_level0 (c : LogCall) (t : State)
    (h : alookup 0 t.levels = none ∨ alookup 0 t.levels = some []) :
    alookup 0 (stepCall c t).levels = none
      ∨ alookup 0 (stepCall c t).levels = some [] := by
  have key : ∀ msg, alookup 0 (stepLogMsg msg t).levels = none
      ∨ alookup 0 (stepLogMsg msg t).levels = some [] := by
    intro msg
    rw [stepLogMsg_levels]
    by_cases hf : (alookup msg.level t.levelFormats).isSome
    · rw [if_pos hf]; exact h
    · rw [if_neg hf]; exact alookup0_mapIndex t.levels msg.level h
  cases c with
  | num level code details loc orig depth now trace => exact key _
  | name level codename details loc orig now trace =>
    cases codename with
    | none => exact key _
    | some cn =>
      simp only [stepCall, stepLogName]
      by_cases ha : atoi cn ≠ 0
      · rw [if_pos ha]; exact key _
      · rw [if_neg ha]; exact key _

/-- Claim C9 (amended): formatting during Log auto-inserts an entry for
any level missing from the level registry — including the reserved
sentinel 0 — but always with the empty string as its name.  Hence under
every sequence of Log calls at arbitrary levels, the registry's entry for
level 0 is either absent or the empty string; only an explicit AddLevel
can associate a non-empty name with level 0. -/
theorem level_zero_stays_empty (calls : List LogCall) (s : State)
    (h : alookup 0 s.levels = none ∨ alookup 0 s.levels = some []) :
    alookup 0 (runCalls calls s).levels = none
      ∨ alookup 0 (runCalls calls s).levels = some [] := by
  induction calls generalizing s with
  | nil => exact h
  | cons c rest ih =>
    simp only [runCalls, List.foldl_cons]
    exact ih (stepCall c s) (stepCall_level0 c s h)

/-- Witness for the amended claim C9 at a concrete input: one Log call at
the reserved level 0 from the freshly-constructed state leaves the entry
for level 0 absent or empty. -/
theorem level_zero_stays_empty_witness :
    alookup 0 (runCalls
        [LogCall.num 0 5 (strOf "d") ⟨strOf "a", strOf "f", 1⟩ [] 3 0
          (fun _ => [])] initState).levels = none
      ∨ alookup 0 (runCalls
        [LogCall.num 0 5 (strOf "d") ⟨strOf "a", strOf "f", 1⟩ [] 3 0
          (fun _ => [])] initState).levels = some [] :=
  level_zero_stays_empty _ initState (Or.inl rfl)

/-- Counterexample to claim C9 as stated: logging once at level 0 from the
freshly-constructed state auto-populates a level-registry entry for the
reserved sentinel 0 (with the empty string as its name), even though no
caller ever invoked AddLevel. -/
theorem level_zero_autoinserted :
    alookup 0 (stepLog 0 5 (strOf "d") ⟨strOf "a", strOf "f", 1⟩ [] 3 0
        (fun _ => []) initState).levels = some []
    ∧ alookup 0 initState.levels = none := ⟨rfl, rfl⟩

theorem alookup_map_ne {κ α : Type} [DecidableEq κ] (m : List (κ × α))
    (k l : κ) (v : α) (h : l ≠ k) :
    alookup l (m.map (fun p => if p.1 = k then (k, v) else p))
      = alookup l m := by
  induction m with
  | nil => rfl
  | cons p t ih =>
    simp only [List.map_cons]
    by_cases hp : p.1 = k
    · rw [if_pos hp]
      rw [alookup, alookup, if_neg (fun hc => h hc.symm),
        if_neg (fun hc => h (hp ▸ hc).symm)]
      exact ih
    · rw [if_neg hp]
      rw [alookup, alookup]
      by_cases hl : p.1 = l
      · rw [if_pos hl, if_pos hl]
      · rw [if_neg hl, if_neg hl]
        exact ih

theorem alookup_map_eq {κ α : Type} [DecidableEq κ] (m : List (κ × α))
    (k : κ) (v w : α) (h : alookup k m = some w) :
    alookup k (m.map (fun p => if p.1 = k then (k, v) else p)) = some v := by
  induction m with
  | nil => simp [alookup] at h
  | cons p t ih =>
    simp only [List.map_cons]
    by_cases hp : p.1 = k
    · rw [if_pos hp, alookup, if_pos rfl]
    · rw [if_neg hp, alookup, if_neg hp]
      rw [alookup, if_neg hp] at h
      exact ih h

theorem alookup_mapInsert {κ α : Type} [DecidableEq κ] (m : List (κ × α))
    (k l : κ) (v : α) :
    alookup l (mapInsert m k v)
      = if l = k then some v else alookup l m := by
  unfold mapInsert
  by_cases hlk : l = k
  · rw [if_pos hlk]
    subst hlk
    cases h : alookup l m with
    | some w => exact alookup_map_eq m l v w h
    | none =>
      simp only
      rw [alookup_append_none l m [(l, v)] h]
      simp [alookup]
  · rw [if_neg hlk]
    cases h : alookup k m with
    | some w => exact alookup_map_ne m k l v hlk
    | none =>
      simp only
      cases hl : alookup l m with
      | some w => exact alookup_append_some l m [(k, v)] w hl
      | none =>
        rw [alookup_append_none l m [(k, v)] hl]
        simp only [alookup]
        rw [if_neg (fun hc => hlk hc.symm)]

/-- Claim C8 (amended): AddLevel(level, name) overwrites the registry
entry at its own key and preserves every entry at any other key: after
the call, looking up a level l yields the new name when l = level and the
previous association otherwise.  (So adding a genuinely new level leaves
all existing entries intact, but re-using an existing key — including the
seeded 1, 2, 3 — renames that entry.) -/
theorem addLevel_pointwise_update (s : State) (level : Int) (name : Str)
    (l : Int) :
    alookup l (stepAddLevel s level name).levels
      = if l = level then some name else alookup l s.levels :=
  alookup_mapInsert s.levels level l name

/-- Counterexample to claim C8 as stated: the seeded entry (1, "DEBUG") is
present before AddLevel(1, "CUSTOM"), yet after the call level 1 no longer
maps to "DEBUG" — the entry has been renamed. -/
theorem addLevel_renames_existing :
    alookup 1 initState.levels = some (strOf "DEBUG")
    ∧ alookup 1 (stepAddLevel initState 1 (strOf "CUSTOM")).levels
        = some (strOf "CUSTOM")
    ∧ strOf "CUSTOM" ≠ strOf "DEBUG" := by
  refine ⟨rfl, rfl, ?_⟩
  decide

end WpiLog

namespace WpiLog

/-- Claim C7: logging at a level with no entry in the level registry does
not fail — the second component of the parseable record (the level name)
is the empty string, and when no custom formatter is registered for the
level, the buffer line is the parseable record and the console line is the
default format. -/
theorem unknown_level_empty_name (s : State) (msg : LogMessage)
    (h1 : alookup msg.level s.levels = none)
    (h2 : alookup msg.level s.levelFormats = none) :
    (parseComponents s.errorCodes s.levels msg).1.get? 1 = some []
    ∧ bufferLine s msg = (formatParseable s.errorCodes s.levels msg).1
    ∧ consoleLine s msg = (formatDefault s.levels msg).1 := by
  refine ⟨?_, ?_, ?_⟩
  · simp only [parseComponents, mapIndex]
    rw [h1]
    rfl
  · unfold bufferLine
    rw [h2]
  · unfold consoleLine
    rw [h2]

/-- Witness for claim C7 at a concrete input: level 42 is unregistered in
the freshly-constructed state, and logging a message at it formats the
empty string as the level name with the default formatters. -/
theorem unknown_level_empty_name_witness :
    (parseComponents initState.errorCodes initState.levels
        (mkLogMessage 42 0 (strOf "d") ⟨strOf "a", strOf "f", 1⟩ [] 3 0
          (fun _ => []))).1.get? 1 = some []
    ∧ bufferLine initState
          (mkLogMessage 42 0 (strOf "d") ⟨strOf "a", strOf "f", 1⟩ [] 3 0
            (fun _ => []))
        = (formatParseable initState.errorCodes initState.levels
            (mkLogMessage 42 0 (strOf "d") ⟨strOf "a", strOf "f", 1⟩ [] 3 0
              (fun _ => []))).1
    ∧ consoleLine initState
          (mkLogMessage 42 0 (strOf "d") ⟨strOf "a", strOf "f", 1⟩ [] 3 0
            (fun _ => []))
        = (formatDefault initState.levels
            (mkLogMessage 42 0 (strOf "d") ⟨strOf "a", strOf "f", 1⟩ [] 3 0
              (fun _ => []))).1 :=
  unknown_level_empty_name initState
    (mkLogMessage 42 0 (strOf "d") ⟨strOf "a", strOf "f", 1⟩ [] 3 0
      (fun _ => []))
    (by decide) rfl

/-- Claim C1: the name overload of Log resolves a non-null codename by
first parsing it with atoi — a non-zero parse is used directly as the
numeric code of the logged message, bypassing the registry entirely (the
statement holds for every error-code table) — and only a zero parse falls
back to ErrorCodes::GetCode, which yields 0 for names absent from the
table. -/
theorem log_codename_resolution (s : State) (level : Int) (cn : Str)
    (details : Str) (loc : LogLocation) (orig : Str) (now : Int)
    (trace : Int → Str) :
    (atoi cn ≠ 0 →
      stepLogName level (some cn) details loc orig now trace s
        = stepLog level (atoi cn) details loc orig 3 now trace s)
    ∧ (atoi cn = 0 →
      stepLogName level (some cn) details loc orig now trace s
        = stepLog level (ecGetCode s.errorCodes cn) details loc orig 3 now
            trace s)
    ∧ (alookup cn s.errorCodes.names = none → ecGetCode s.errorCodes cn = 0)
    ∧ (mkLogMessage level (atoi cn) details loc orig 3 now trace).code
        = atoi cn
    ∧ (mkLogMessage level (ecGetCode s.errorCodes cn) details loc orig 3 now
        trace).code = ecGetCode s.errorCodes cn := by
  refine ⟨?_, ?_, ?_, rfl, rfl⟩
  · intro h
    simp only [stepLogName]
    rw [if_pos h]
  · intro h
    simp only [stepLogName]
    rw [if_neg (fun hc => hc h)]
  · intro h
    unfold ecGetCode
    rw [h]
    rfl

/-- Witness for claim C1 at a concrete, sharp-edged input: the codename
"42" parses to the non-zero value 42, so it is logged with code 42 even
against an error-code table that explicitly maps the name "42" to -6 —
the registry is bypassed. -/
theorem log_codename_resolution_witness :
    stepLogName 1 (some (strOf "42")) (strOf "d") ⟨strOf "a", strOf "f", 1⟩
        [] 0 (fun _ => [])
        { initState with errorCodes := ⟨[], [(strOf "42", -6)]⟩ }
      = stepLog 1 42 (strOf "d") ⟨strOf "a", strOf "f", 1⟩ [] 3 0
          (fun _ => [])
          { initState with errorCodes := ⟨[], [(strOf "42", -6)]⟩ } :=
  (log_codename_resolution
    { initState with errorCodes := ⟨[], [(strOf "42", -6)]⟩ } 1
    (strOf "42") (strOf "d") ⟨strOf "a", strOf "f", 1⟩ [] 0
    (fun _ => [])).1 (by decide)

end WpiLog
